import Mathlib

/-!
Shallow embedding of `calllog_exporter.py` (android_call_log_converter).

The Python program decodes a JSON call-log export into `PhoneCall` records and
renders them as CSV rows.  This file models, faithfully to the source and to
CPython 3.11 semantics (the version the source requires, via
`from enum import UNIQUE, verify`):

  * the pretty-printing of `PrettyEnum` / `PrettyFlag` members
    (`str.capitalize`, separator replacement, composite flag names),
  * `IntEnum` strict decoding versus `IntFlag` KEEP-boundary decoding,
  * `PhoneCall.from_json` (field presence policy, per-type decoding,
    destructive `obj.pop`),
  * `PhoneCall.csv_row` (column validation and per-type formatting,
    `str(timedelta).rjust(8, chr 48)` for durations, `strftime` patterns),
  * the date-range filter of `PhoneCall.convert_to_csv`.

Machine integers are modelled as `Nat`/`Int` (Python integers are unbounded).
Timestamps are modelled as instants in epoch seconds or milliseconds; the
civil-calendar rendering of a decoded timestamp is carried by a `DateTime`
record of the displayed components.  The range filter's day cutoffs follow
the source's pytz naive-attach semantics: naive midnight with the zone's
default local-mean-time offset, which differs from civil midnight (see
`dayBound`).
-/

deriving instance DecidableEq for Except

namespace CallLog

/-! ## String helpers modelling Python primitives -/

/-- Python `s.rjust(w, c)`: left-pad `s` with `c` to total length `w`. -/
def rjust (s : String) (w : Nat) (c : Char) : String :=
  String.mk (List.replicate (w - s.length) c ++ s.data)

/-- Python `str.capitalize()` (ASCII case) on a character list: first
character upper-cased, the rest lower-cased. -/
def capList : List Char → List Char
  | [] => []
  | c :: cs => c.toUpper :: cs.map Char.toLower

/-- Python `s.split(sep)` for a one-character separator: split at every
occurrence, keeping empty pieces. -/
def splitChar (c : Char) : List Char → List (List Char)
  | [] => [[]]
  | x :: xs =>
    if x = c then [] :: splitChar c xs
    else
      match splitChar c xs with
      | [] => [[x]]
      | w :: ws => (x :: w) :: ws

/-- Python `s.replace(old, new)` for a single-character `old`:
every occurrence of `c` is replaced by the string `r`. -/
def replaceChar (s : String) (c : Char) (r : String) : String :=
  String.mk (s.data.foldr (fun x acc => if x = c then r.data ++ acc else x :: acc) [])

/-- Worker for `replaceList`, structurally recursive on a fuel argument so
that it evaluates inside the kernel. -/
def replaceListAux (pat rep : List Char) : Nat → List Char → List Char
  | _, [] => []
  | 0, l => l
  | fuel + 1, x :: xs =>
    if pat.isPrefixOf (x :: xs) then
      rep ++ replaceListAux pat rep fuel ((x :: xs).drop pat.length)
    else x :: replaceListAux pat rep fuel xs

/-- Python `s.replace(old, new)` for a nonempty `old`: left-to-right,
non-overlapping replacement of every occurrence (all patterns used by the
source are nonempty). -/
def pyReplace (s pat rep : String) : String :=
  String.mk (replaceListAux pat.data rep.data s.data.length s.data)

/-- Python `' '.join(w.capitalize() for w in s.split(' '))`. -/
def capWords (s : String) : String :=
  String.mk (List.intercalate [' '] ((splitChar ' ' s.data).map capList))

/-- Python `int(s)` on the decimal-literal strings occurring in the export
format: optional sign followed by one or more digits (surrounding whitespace
and underscores, which `int` also accepts, do not occur in the data and are
not modelled). -/
def parseInt (s : String) : Option Int :=
  let digits (l : List Char) : Option Nat :=
    if l.isEmpty then none
    else if l.all Char.isDigit then
      some (l.foldl (fun a c => a * 10 + (c.toNat - 48)) 0)
    else none
  match s.data with
  | '-' :: rest => (digits rest).map (fun n => -(n : Int))
  | '+' :: rest => (digits rest).map (fun n => (n : Int))
  | l => (digits l).map (fun n => (n : Int))

/-! ## Enumerations and flag sets

Each Python `IntEnum` / `IntFlag` class is modelled by its list of
`(symbolic name, integer value)` members in definition order. -/

def callTypeMembers : List (String × Nat) :=
  [("INCOMING", 1), ("OUTGOING", 2), ("MISSED", 3), ("VOICEMAIL", 4),
   ("REJECTED", 5), ("BLOCKED", 6), ("ANSWERED_EXTERNALLY", 7)]

def numberTypeMembers : List (String × Nat) :=
  [("_", 0), ("HOME", 1), ("MOBILE", 2), ("WORK", 3), ("FAX_WORK", 4),
   ("FAX_HOME", 5), ("PAGER", 6), ("OTHER", 7), ("CALLBACK", 8), ("CAR", 9),
   ("COMPANY_MAIN", 10), ("ISDN", 11), ("MAIN", 12), ("OTHER_FAX", 13),
   ("RADIO", 14), ("TELEX", 15), ("TTY_TDD", 16), ("WORK_MOBILE", 17),
   ("WORK_PAGER", 18), ("ASSISTANT", 19), ("MMS", 20)]

def missedReasonMembers : List (String × Nat) :=
  [("NOT_MISSED", 0),
   ("AUTO_MISSED_EMERGENCY_CALL", 1),
   ("AUTO_MISSED_MAXIMUM_RINGING", 2),
   ("AUTO_MISSED_MAXIMUM_DIALING", 4),
   ("USER_MISSED_NO_ANSWER", 0x10000),
   ("USER_MISSED_SHORT_RING", 0x20000),
   ("USER_MISSED_DND_MODE", 0x40000),
   ("USER_MISSED_LOW_RING_VOLUME", 0x80000),
   ("USER_MISSED_NO_VIBRATE", 0x100000),
   ("USER_MISSED_CALL_SCREENING_SERVICE_SILENCED", 0x200000),
   ("USER_MISSED_CALL_FILTERS_TIMEOUT", 0x400000)]

def blockedReasonMembers : List (String × Nat) :=
  [("NOT_BLOCKED", 0), ("CALL_SCREENING_SERVICE", 1), ("DIRECT_TO_VOICEMAIL", 2),
   ("BLOCKED_NUMBER", 3), ("UNKNOWN_NUMBER", 4), ("RESTRICTED_NUMBER", 5),
   ("PAY_PHONE", 6), ("NOT_IN_CONTACTS", 7)]

def numberPresentationMembers : List (String × Nat) :=
  [("ALLOWED", 1), ("RESTRICTED", 2), ("UNKNOWN", 3), ("PAYPHONE", 4),
   ("UNAVAILABLE", 5)]

def callFeaturesMembers : List (String × Nat) :=
  [("ASSISTED_DIALING_USED", 16), ("HD_CALL", 4), ("PULLED_EXTERNALLY", 2),
   ("RTT", 32), ("VIDEO", 1), ("VOLTE", 64), ("WIFI", 8)]

/-- The name of the `IntEnum` member with value `v`, if defined. -/
def enumName (members : List (String × Nat)) (v : Nat) : Option String :=
  (members.find? (fun p => p.2 == v)).map (fun p => p.1)

/-- The nonzero canonical members of a flag class whose bits are all set in
`v`, in definition order (CPython 3.11 composes a pseudo-member name from
these). -/
def flagMembersOf (members : List (String × Nat)) (v : Nat) : List (String × Nat) :=
  members.filter (fun p => p.2 != 0 && p.2 &&& v == p.2)

/-- The `name` attribute of flag value `v` under CPython 3.11 `Flag` with the
`KEEP` boundary: a defined member keeps its name; otherwise the names of the
contained nonzero canonical members are joined with a bar, with any residual
unknown bits appended as a decimal number; a value with no known bits has no
name. -/
def flagName (members : List (String × Nat)) (v : Nat) : Option String :=
  match (members.find? (fun p => p.2 == v)).map (fun p => p.1) with
  | some n => some n
  | none =>
    let known := flagMembersOf members v
    if known.isEmpty then none
    else
      let knownMask := known.foldl (fun a p => a ||| p.2) 0
      let unknown := v ^^^ knownMask
      let parts := known.map (fun p => p.1) ++
        (if unknown != 0 then [toString unknown] else [])
      some (String.mk (List.intercalate ['|'] (parts.map String.data)))

/-- `PrettyEnum.__str__`: pretty label of a defined enum member value. -/
def prettyEnumStr (members : List (String × Nat)) (v : Nat) : String :=
  match enumName members v with
  | none => toString v
  | some n => capWords (replaceChar n '_' " ")

/-- `PrettyFlag.__str__`: empty for value 0, the raw number for a nameless
pseudo-member, otherwise the bar-joined name with bars turned into comma
separators and underscores into spaces, each word capitalized. -/
def prettyFlagStr (members : List (String × Nat)) (v : Nat) : String :=
  if v = 0 then ""
  else
    match flagName members v with
    | none => toString v
    | some n => capWords (replaceChar (replaceChar n '|' ", ") '_' " ")

/-- `NumberType.__str__`: empty for value 0, otherwise the `PrettyEnum` label. -/
def numberTypeStr (v : Nat) : String :=
  if v = 0 then "" else prettyEnumStr numberTypeMembers v

/-- `CallFeatures.__str__`: the `PrettyFlag` label with the fix-ups for the
acronym members. -/
def callFeaturesStr (v : Nat) : String :=
  pyReplace (pyReplace (pyReplace (prettyFlagStr callFeaturesMembers v)
    "Rtt" "RTT") "Volte" "VoLTE") "Wifi" "WiFi"

/-! ## The record decoder: `PhoneCall.from_json`

A raw JSON object is an association list of field name to raw value.  The
export format carries strings, numbers and booleans. -/

inductive RawVal where
  | str (s : String)
  | int (n : Int)
  | bool (b : Bool)
deriving DecidableEq, Repr

/-- The declared type of a `PhoneCall` dataclass field, which drives the
per-field decoding branch taken in `from_json`. -/
inductive FType where
  | datetime
  | duration
  | enum (members : List (String × Nat))
  | flag (members : List (String × Nat))
  | boolean
  | string
  | integer
deriving DecidableEq, Repr

/-- A decoded field value as stored in the `call` dictionary by `from_json`.
A decoded timestamp is the instant it denotes, kept as epoch milliseconds
(conversion to the display timezone preserves the instant). -/
inductive DecVal where
  | dtv (ms : Int)
  | durv (secs : Int)
  | enumv (v : Nat)
  | flagv (v : Nat)
  | bv (b : Bool)
  | sv (s : String)
  | iv (n : Int)
deriving DecidableEq, Repr

/-- One dataclass field of `PhoneCall`: its name, declared type, and whether
the declaration carries a default value. -/
structure FieldSpec where
  name : String
  type : FType
  hasDefault : Bool
deriving DecidableEq, Repr

/-- The fields of the `PhoneCall` dataclass, in declaration order. -/
def phoneCallFields : List FieldSpec :=
  [⟨"date", .datetime, false⟩,
   ⟨"phone_account_hidden", .boolean, false⟩,
   ⟨"photo_id", .integer, false⟩,
   ⟨"subscription_component_name", .string, false⟩,
   ⟨"type", .enum callTypeMembers, false⟩,
   ⟨"presentation", .enum numberPresentationMembers, false⟩,
   ⟨"duration", .duration, false⟩,
   ⟨"subscription_id", .integer, false⟩,
   ⟨"is_read", .boolean, false⟩,
   ⟨"number", .string, false⟩,
   ⟨"features", .flag callFeaturesMembers, false⟩,
   ⟨"via_number", .string, false⟩,
   ⟨"last_modified", .datetime, false⟩,
   ⟨"new", .boolean, false⟩,
   ⟨"missed_reason", .flag missedReasonMembers, false⟩,
   ⟨"phone_account_address", .string, false⟩,
   ⟨"add_for_all_users", .boolean, false⟩,
   ⟨"block_reason", .enum blockedReasonMembers, false⟩,
   ⟨"priority", .integer, false⟩,
   ⟨"countryiso", .string, false⟩,
   ⟨"is_call_log_phone_account_migration_pending", .boolean, false⟩,
   ⟨"post_dial_digits", .string, false⟩,
   ⟨"transcription_state", .boolean, false⟩,
   ⟨"_id", .integer, false⟩,
   ⟨"subject", .string, true⟩,
   ⟨"matched_number", .string, true⟩,
   ⟨"formatted_nummer", .string, true⟩,
   ⟨"normalized_number", .string, true⟩,
   ⟨"lookup_uri", .string, true⟩,
   ⟨"name", .string, true⟩,
   ⟨"display_name", .string, true⟩,
   ⟨"numbertype", .enum numberTypeMembers, true⟩,
   ⟨"data_usage", .integer, true⟩,
   ⟨"geocoded_location", .string, true⟩]

/-- Bit width of a `Nat` (`int.bit_length` in Python). -/
def bitLength (n : Nat) : Nat := n.log2 + if n = 0 then 0 else 1

/-- CPython 3.11 `IntFlag` uses the `KEEP` boundary: any non-negative value
is accepted as-is, unknown bits included; a negative value is brought into
range modulo two to the bit width of the union of the member values. -/
def flagKeep (members : List (String × Nat)) (n : Int) : Nat :=
  if 0 ≤ n then n.toNat
  else (n % ((2 : Int) ^ bitLength (members.foldl (fun a p => a ||| p.2) 0))).toNat

/-- The instants `datetime.utcfromtimestamp(ms / 1000)` followed by
`astimezone` to the display zone can represent, in epoch milliseconds.
`utcfromtimestamp` requires the year to be at least 1, so the instant must
be at or after -62135596800 seconds; `astimezone` then adds the zone's
offset for the instant — CET, +3600 seconds, at the far-future end — and
its result must stay within year 9999, capping the instant at
253402300799 - 3600 seconds.  Sub-millisecond effects of the float division
by 1000 at these extreme edges are not modelled. -/
def datetimeMinMs : Int := -62135596800000

def datetimeMaxMs : Int := 253402297199999

/-- The seconds `timedelta(seconds=n)` accepts: the normalized day count
must have magnitude at most 999999999 (the `timedelta.min`/`timedelta.max`
bounds), so `n` ranges from -999999999 days to 999999999 days, 23:59:59. -/
def timedeltaMinSec : Int := -86399999913600

def timedeltaMaxSec : Int := 86399999999999

/-- The per-type decoding step of `from_json` (the body of its `try` block,
for one field).  Errors are the exceptions the corresponding Python branch
raises: `int()` on a non-numeric string, a strict enum lookup miss, a
timestamp `utcfromtimestamp`/`astimezone` cannot represent, or a span
overflowing `timedelta`. -/
def decodeField : FType → RawVal → Except String DecVal
  | .datetime, .str s => match parseInt s with
    | some n =>
      if datetimeMinMs ≤ n ∧ n ≤ datetimeMaxMs then .ok (.dtv n)
      else .error "date value out of range"
    | none => .error "invalid literal for int"
  | .datetime, .int n =>
    if datetimeMinMs ≤ n ∧ n ≤ datetimeMaxMs then .ok (.dtv n)
    else .error "date value out of range"
  | .datetime, .bool b => .ok (.dtv (if b then 1 else 0))
  | .duration, .str s => match parseInt s with
    | some n =>
      if timedeltaMinSec ≤ n ∧ n ≤ timedeltaMaxSec then .ok (.durv n)
      else .error "days must have magnitude at most 999999999"
    | none => .error "invalid literal for int"
  | .duration, .int n =>
    if timedeltaMinSec ≤ n ∧ n ≤ timedeltaMaxSec then .ok (.durv n)
    else .error "days must have magnitude at most 999999999"
  | .duration, .bool b => .ok (.durv (if b then 1 else 0))
  | .enum members, .str s => match parseInt s with
    | some n =>
      if members.any (fun p => (p.2 : Int) == n) then .ok (.enumv n.toNat)
      else .error (toString n ++ " is not a valid member")
    | none => .error "invalid literal for int"
  | .enum members, .int n =>
    if members.any (fun p => (p.2 : Int) == n) then .ok (.enumv n.toNat)
    else .error (toString n ++ " is not a valid member")
  | .enum members, .bool b =>
    let n : Int := if b then 1 else 0
    if members.any (fun p => (p.2 : Int) == n) then .ok (.enumv n.toNat)
    else .error (toString n ++ " is not a valid member")
  | .flag members, .str s => match parseInt s with
    | some n => .ok (.flagv (flagKeep members n))
    | none => .error "invalid literal for int"
  | .flag members, .int n => .ok (.flagv (flagKeep members n))
  | .flag _, .bool b => .ok (.flagv (if b then 1 else 0))
  | .boolean, .str s => .ok (.bv (s == "1"))
  | .boolean, .bool b => .ok (.bv b)
  | .boolean, .int n => .ok (.bv (n != 0))
  | .string, .str s => .ok (.sv s)
  | .string, .int n => .ok (.sv (toString n))
  | .string, .bool b => .ok (.sv (if b then "True" else "False"))
  | .integer, .str s => match parseInt s with
    | some n => .ok (.iv n)
    | none => .error "invalid literal for int"
  | .integer, .int n => .ok (.iv n)
  | .integer, .bool b => .ok (.bv b)

/-- A decode failure of `from_json`, as the exception the program raises.
`missingField` models the `KeyError` from `obj.pop(key)`, whose argument is
the key itself; `badValue` models a `ValueError` raised inside the `try`
block (from `int()`, a strict enum lookup, or an out-of-range timestamp or
span), whose message names the offending raw value but not the field — the
source prints the field name only in its `except TypeError` handler, which
none of these errors reach, so no field name accompanies them. -/
inductive DecodeError where
  | missingField (field : String)
  | badValue (msg : String)
deriving DecidableEq, Repr

/-- Python `obj.pop(key)`: the value under `key` together with the dictionary
with that key removed; `none` models the `KeyError` when the key is absent. -/
def popKey (k : String) (obj : List (String × RawVal)) :
    Option (RawVal × List (String × RawVal)) :=
  match obj.lookup k with
  | some v => some (v, obj.eraseP (fun kv => kv.1 == k))
  | none => none

/-- The field loop of `from_json` for one record: walk the dataclass fields
in declaration order; skip an absent field that has a default; pop each
consumed key from the input object; decode per declared type.  Returns the
decoded `call` dictionary together with what is left of the input object. -/
def decodeFields : List FieldSpec → List (String × RawVal) →
    Except DecodeError (List (String × DecVal) × List (String × RawVal))
  | [], obj => .ok ([], obj)
  | f :: fs, obj =>
    if f.hasDefault ∧ obj.lookup f.name = none then decodeFields fs obj
    else
      match popKey f.name obj with
      | none => .error (.missingField f.name)
      | some (v, rest) =>
        match decodeField f.type v with
        | .error msg => .error (.badValue msg)
        | .ok d =>
          match decodeFields fs rest with
          | .error e => .error e
          | .ok (ds, rest2) => .ok ((f.name, d) :: ds, rest2)

/-- `PhoneCall.from_json` on a single JSON object. -/
def fromJsonObj (obj : List (String × RawVal)) :
    Except DecodeError (List (String × DecVal) × List (String × RawVal)) :=
  decodeFields phoneCallFields obj

/-! ## Timestamps and `strftime` formatting

A decoded timestamp, as displayed, is a civil date-time in the configured
display timezone. -/

structure DateTime where
  year : Nat
  month : Nat
  day : Nat
  hour : Nat
  minute : Nat
  second : Nat
deriving DecidableEq, Repr

/-- `strftime` two-digit zero-padded component (`%d`, `%m`, `%H`, `%M`,
`%S`). -/
def pad2 (n : Nat) : String := rjust (toString n) 2 '0'

/-- `strftime` pattern `%d.%m.%Y`.  On the target platform `%Y` renders the
year without padding (`str(year)`); Python datetime years are 1..9999. -/
def fmtDate (d : DateTime) : String :=
  pad2 d.day ++ "." ++ pad2 d.month ++ "." ++ toString d.year

/-- `strftime` pattern `%H:%M:%S`. -/
def fmtTime (d : DateTime) : String :=
  pad2 d.hour ++ ":" ++ pad2 d.minute ++ ":" ++ pad2 d.second

/-- `strftime` pattern `%d.%m.%Y %H:%M:%S`. -/
def fmtDateTime (d : DateTime) : String := fmtDate d ++ " " ++ fmtTime d

/-- Python `str(timedelta(seconds=secs))`: the span is normalized to whole
days plus a non-negative remainder; the remainder prints as `H:MM:SS` with an
unpadded hour, preceded by a day count (with singular or plural unit) when
nonzero. -/
def tdStr (secs : Int) : String :=
  let days := secs.fdiv 86400
  let rest := (secs - days * 86400).toNat
  let h := rest / 3600
  let m := rest % 3600 / 60
  let s := rest % 60
  let hms := toString h ++ ":" ++ pad2 m ++ ":" ++ pad2 s
  if days = 0 then hms
  else toString days ++ (if days = 1 ∨ days = -1 then " day, " else " days, ") ++ hms

/-- The duration cell of `csv_row`: `str(value).rjust(8, chr 48)`. -/
def renderDuration (secs : Int) : String := rjust (tdStr secs) 8 '0'

/-! ## The `PhoneCall` record and `csv_row` -/

/-- The decoded `PhoneCall` dataclass.  Enumeration and flag fields hold the
member's integer value (Python `IntEnum`/`IntFlag` members are integers);
fields whose dataclass default is `None` are options. -/
structure CallRecord where
  date : DateTime
  phone_account_hidden : Bool
  photo_id : Int
  subscription_component_name : String
  type : Nat
  presentation : Nat
  duration : Int
  subscription_id : Int
  is_read : Bool
  number : String
  features : Nat
  via_number : String
  last_modified : DateTime
  new : Bool
  missed_reason : Nat
  phone_account_address : String
  add_for_all_users : Bool
  block_reason : Nat
  priority : Int
  countryiso : String
  is_call_log_phone_account_migration_pending : Bool
  post_dial_digits : String
  transcription_state : Bool
  _id : Int
  subject : Option String := none
  matched_number : Option String := none
  formatted_nummer : Option String := none
  normalized_number : Option String := none
  lookup_uri : Option String := none
  name : String := ""
  display_name : String := ""
  numbertype : Option Nat := none
  data_usage : Option Int := none
  geocoded_location : String := ""
deriving DecidableEq, Repr

/-- A field value as seen by `getattr` in `csv_row`, tagged with the Python
runtime class that the `match` statement dispatches on. -/
inductive FieldVal where
  | dt (v : DateTime)
  | dur (v : Int)
  | b (v : Bool)
  | s (v : String)
  | i (v : Int)
  | enumv (members : List (String × Nat)) (v : Nat)
  | ntype (v : Nat)
  | flagv (members : List (String × Nat)) (v : Nat)
  | cfeat (v : Nat)
  | none
deriving DecidableEq, Repr

/-- `getattr(self, field, None)` on a `PhoneCall`. -/
def getField (r : CallRecord) (field : String) : FieldVal :=
  if field = "date" then .dt r.date
  else if field = "phone_account_hidden" then .b r.phone_account_hidden
  else if field = "photo_id" then .i r.photo_id
  else if field = "subscription_component_name" then .s r.subscription_component_name
  else if field = "type" then .enumv callTypeMembers r.type
  else if field = "presentation" then .enumv numberPresentationMembers r.presentation
  else if field = "duration" then .dur r.duration
  else if field = "subscription_id" then .i r.subscription_id
  else if field = "is_read" then .b r.is_read
  else if field = "number" then .s r.number
  else if field = "features" then .cfeat r.features
  else if field = "via_number" then .s r.via_number
  else if field = "last_modified" then .dt r.last_modified
  else if field = "new" then .b r.new
  else if field = "missed_reason" then .flagv missedReasonMembers r.missed_reason
  else if field = "phone_account_address" then .s r.phone_account_address
  else if field = "add_for_all_users" then .b r.add_for_all_users
  else if field = "block_reason" then .enumv blockedReasonMembers r.block_reason
  else if field = "priority" then .i r.priority
  else if field = "countryiso" then .s r.countryiso
  else if field = "is_call_log_phone_account_migration_pending" then .b r.is_call_log_phone_account_migration_pending
  else if field = "post_dial_digits" then .s r.post_dial_digits
  else if field = "transcription_state" then .b r.transcription_state
  else if field = "_id" then .i r._id
  else if field = "subject" then (r.subject.map FieldVal.s).getD .none
  else if field = "matched_number" then (r.matched_number.map FieldVal.s).getD .none
  else if field = "formatted_nummer" then (r.formatted_nummer.map FieldVal.s).getD .none
  else if field = "normalized_number" then (r.normalized_number.map FieldVal.s).getD .none
  else if field = "lookup_uri" then (r.lookup_uri.map FieldVal.s).getD .none
  else if field = "name" then .s r.name
  else if field = "display_name" then .s r.display_name
  else if field = "numbertype" then (r.numbertype.map FieldVal.ntype).getD .none
  else if field = "data_usage" then (r.data_usage.map FieldVal.i).getD .none
  else if field = "geocoded_location" then .s r.geocoded_location
  else .none

/-- Python truthiness of an optional string (`None` and the empty string are
falsy). -/
def strOptTruthy : Option String → Bool
  | Option.none => false
  | Option.some s => s != ""

/-- One cell of `csv_row`, following the `match field, value` statement of the
source case by case, in order. -/
def csvCell (r : CallRecord) (outFields : List String) (field : String) : String :=
  let value := getField r field
  if field = "date" then
    if outFields.contains "time" then fmtDate r.date else fmtDateTime r.date
  else if field = "time" then fmtTime r.date
  else
    match value with
    | .dt v => fmtDateTime v
    | .dur v => renderDuration v
    | value =>
      if field = "formatted_numer" then
        -- The source tests the misspelled name `formatted_numer`, which is
        -- not an attribute, so `getattr` gave `None` (falsy) and the branch
        -- always substitutes `normalized_number or number`.
        if strOptTruthy r.normalized_number then r.normalized_number.getD ""
        else r.number
      else
        match value with
        | .b v => if v then "Yes" else "No"
        | .none => ""
        | .s v => v
        | .i v => toString v
        | .enumv ms v => prettyEnumStr ms v
        | .ntype v => numberTypeStr v
        | .flagv ms v => prettyFlagStr ms v
        | .cfeat v => callFeaturesStr v
        | .dt v => fmtDateTime v
        | .dur v => renderDuration v

/-- The dataclass field names (`call_fields` in `csv_row`). -/
def callFieldNames : List String := phoneCallFields.map (fun f => f.name)

/-- `csv_row`'s column validation failure (`ValueError` in the source). -/
inductive ColumnError where
  | unknownFields
deriving DecidableEq, Repr

/-- `PhoneCall.default_csv_fields`. -/
def defaultCsvFields : List String :=
  ["date", "time", "type", "duration", "number", "display_name", "numbertype",
   "presentation", "missed_reason", "block_reason", "features", "countryiso"]

/-- `PhoneCall.csv_row`: every requested column other than the alias `time`
must be a dataclass field name, otherwise a `ValueError` is raised before any
cell is rendered; on success, one cell per requested column. -/
def csvRow (r : CallRecord) (fields : List String) : Except ColumnError (List String) :=
  if fields.all (fun f => f == "time" || callFieldNames.contains f) then
    .ok (fields.map (csvCell r fields))
  else .error .unknownFields

/-- `PhoneCall.csv_header`: each column name with underscores as spaces and
each word capitalized. -/
def csvHeader (fields : List String) : List String :=
  fields.map (fun f => capWords (replaceChar f '_' " "))

/-! ## The date-range filter of `convert_to_csv`

Only the timestamp of each record matters to the filter, so it is modelled on
the list of record timestamps, as instants in epoch seconds.  Day `d`'s
naive midnight sits at `d * 86400` on the naive clock.

The program turns a start or stop day into a bound with
`datetime.combine(date, time(), tzinfo=tz)` — attaching the pytz zone object
directly to a naive midnight.  A pytz zone used that way carries its first
(local-mean-time) offset, not the civil offset of that date: for
Europe/Vienna, LMT is +1:05:21, which pytz rounds to whole minutes, +01:05 =
3900 seconds.  Record instants, by contrast, reach the comparison via
`astimezone`, which preserves the instant and renders it with the correct
civil offset (CET +3600 in winter, CEST +7200 in summer).  The cutoff
instants therefore differ from civil midnight: 300 seconds before it in
winter, 3300 seconds after it in summer. -/

def pytzNaiveOffset : Int := 3900

/-- The boundary instant the program computes for "midnight of day `d`":
naive midnight of `d` with pytz's default LMT offset attached. -/
def dayBound (d : Int) : Int := d * 86400 - pytzNaiveOffset

/-- Follows the spec's words: instant `t` lies within civil calendar day `d`
of the display timezone, whose UTC offset at `t` is `off` (3600 in winter,
7200 in summer for Europe/Vienna) — at or after that day's civil midnight,
before the next civil midnight. -/
def inCivilDay (off d t : Int) : Bool :=
  decide (d * 86400 - off ≤ t) && decide (t < (d + 1) * 86400 - off)

/-- The row loop of `convert_to_csv`: stop at the first record older than
`startI` (the records are expected in descending order), skip records at or
after `stopI`. -/
def keepRows (startI stopI : Option Int) : List Int → List Int
  | [] => []
  | t :: ts =>
    if startI.any (fun s => decide (t < s)) then []
    else if stopI.any (fun e => decide (e ≤ t)) then keepRows startI stopI ts
    else t :: keepRows startI stopI ts

/-- `convert_to_csv`'s range handling: the start day becomes its (LMT-based)
midnight bound, the stop day becomes that bound plus one day. -/
def convertDateFilter (startDay stopDay : Option Int) (calls : List Int) : List Int :=
  keepRows (startDay.map dayBound) (stopDay.map (fun d => dayBound d + 86400)) calls

/-- The membership predicate the filter implements: at or after the start
day's cutoff instant, before the stop day's cutoff instant plus one day
(each bound only when given, cutoffs per `dayBound`). -/
def inRange (startDay stopDay : Option Int) (t : Int) : Bool :=
  (startDay.all (fun s => decide (dayBound s ≤ t))) &&
  (stopDay.all (fun e => decide (t < dayBound e + 86400)))

/-- The instant-level range test `keepRows` is shown to implement on sorted
input: at or after `startI`, before `stopI` (each bound only when given). -/
def rangeTest (startI stopI : Option Int) (t : Int) : Bool :=
  (startI.all (fun s => decide (s ≤ t))) && (stopI.all (fun e => decide (t < e)))

/-! ## Claim-side definitions and concrete inputs -/

/-- Numeric value of an ASCII digit character. -/
def digitVal (c : Char) : Nat := c.toNat - 48

/-- Parse exactly two digit characters. -/
def parse2 : List Char → Option Nat
  | [a, b] =>
    if a.isDigit && b.isDigit then some (digitVal a * 10 + digitVal b)
    else none
  | _ => none

/-- Parse a nonempty all-digit character list. -/
def parseDigits (l : List Char) : Option Nat :=
  if l.isEmpty then none
  else if l.all Char.isDigit then
    some (l.foldl (fun a c => a * 10 + digitVal c) 0)
  else none

/-- Recover a timestamp, to second precision, from a rendered date column
(`DD.MM.YYYY`) and time column (`HH:MM:SS`). -/
def reconstructDT (ds ts : String) : Option DateTime :=
  match ds.data, ts.data with
  | d1 :: d2 :: c1 :: m1 :: m2 :: c2 :: ys, [h1, h2, c3, n1, n2, c4, s1, s2] =>
    if c1 = '.' ∧ c2 = '.' ∧ c3 = ':' ∧ c4 = ':' then
      match parse2 [d1, d2], parse2 [m1, m2], parseDigits ys,
          parse2 [h1, h2], parse2 [n1, n2], parse2 [s1, s2] with
      | some d, some m, some y, some h, some mi, some s =>
        some ⟨y, m, d, h, mi, s⟩
      | _, _, _, _, _, _ => none
    else none
  | _, _ => none

/-- Bounds every displayed timestamp component satisfies (Python `datetime`
enforces tighter ones: year 1..9999, month 1..12, and so on; four-digit
years are what epoch-derived call timestamps carry). -/
def ValidDT (d : DateTime) : Prop :=
  1000 ≤ d.year ∧ d.year < 10000 ∧ d.month < 100 ∧ d.day < 100 ∧
    d.hour < 100 ∧ d.minute < 100 ∧ d.second < 100

instance (d : DateTime) : Decidable (ValidDT d) := by
  unfold ValidDT
  infer_instance

/-- Follows the spec's words for the claimed duration format: a string of
the form `HH:MM:SS`, zero-padded to at least 8 characters in total — all
digits except colons before the two-digit minute and second parts, with an
hour part of at least two digits. -/
def specHMSForm (s : String) : Bool :=
  match s.data.reverse with
  | s1 :: s2 :: c1 :: m1 :: m2 :: c2 :: rest =>
    s1.isDigit && s2.isDigit && c1 == ':' && m1.isDigit && m2.isDigit &&
      c2 == ':' && decide (2 ≤ rest.length) && rest.all Char.isDigit
  | _ => false

/-- Follows the spec's words for the claimed success condition of decoding:
every field declared without a default is present and decodable. -/
def requiredFieldsOk (obj : List (String × RawVal)) : Bool :=
  phoneCallFields.all (fun f =>
    f.hasDefault ||
      (match obj.lookup f.name with
       | some v => (decodeField f.type v).isOk
       | none => false))

/-- The corrected success condition: every no-default field is present and
decodable, and every field that is present — default or not — is decodable. -/
def allPresentFieldsOk (obj : List (String × RawVal)) : Bool :=
  phoneCallFields.all (fun f =>
    match obj.lookup f.name with
    | some v => (decodeField f.type v).isOk
    | none => f.hasDefault)

/-- The pretty label of a single `CallFeatures` member name: the generic
capitalized-words label with the acronym fix-ups applied. -/
def prettyFeatureLabel (n : String) : String :=
  pyReplace (pyReplace (pyReplace (capWords (replaceChar n '_' " "))
    "Rtt" "RTT") "Volte" "VoLTE") "Wifi" "WiFi"

/-- A well-formed input object carrying every required field of the export
format (stringified values, as the Android export produces). -/
def baseObj : List (String × RawVal) :=
  [("date", .str "1709715600000"),
   ("phone_account_hidden", .str "0"),
   ("photo_id", .str "0"),
   ("subscription_component_name", .str "com.android.phone"),
   ("type", .str "1"),
   ("presentation", .str "1"),
   ("duration", .str "60"),
   ("subscription_id", .str "1"),
   ("is_read", .str "1"),
   ("number", .str "06641234567"),
   ("features", .str "0"),
   ("via_number", .str ""),
   ("last_modified", .str "1709715600000"),
   ("new", .str "1"),
   ("missed_reason", .str "0"),
   ("phone_account_address", .str ""),
   ("add_for_all_users", .str "1"),
   ("block_reason", .str "0"),
   ("priority", .str "0"),
   ("countryiso", .str "at"),
   ("is_call_log_phone_account_migration_pending", .str "0"),
   ("post_dial_digits", .str ""),
   ("transcription_state", .str "0"),
   ("_id", .str "1")]

/-- `baseObj` with the flag field `missed_reason` carrying an integer whose
set bit corresponds to no defined `MissedReason` flag. -/
def objUnknownFlag : List (String × RawVal) :=
  baseObj.map (fun kv =>
    if kv.1 == "missed_reason" then (kv.1, RawVal.str "8388608") else kv)

/-- `baseObj` with the enum field `type` carrying an undefined code. -/
def objUnknownEnum : List (String × RawVal) :=
  baseObj.map (fun kv =>
    if kv.1 == "type" then (kv.1, RawVal.str "99") else kv)

/-- `baseObj` plus a defaulted field that is present but not decodable. -/
def objBadOptional : List (String × RawVal) :=
  baseObj ++ [("numbertype", RawVal.str "99")]

/-- `baseObj` plus a key that is no `PhoneCall` field. -/
def objExtraKey : List (String × RawVal) :=
  baseObj ++ [("contact_ringtone", RawVal.str "x")]

/-- A concrete decoded record (defaults for the optional fields). -/
def rec0 : CallRecord :=
  { date := ⟨2024, 3, 6, 10, 20, 30⟩,
    phone_account_hidden := false,
    photo_id := 0,
    subscription_component_name := "com.android.phone",
    type := 1,
    presentation := 1,
    duration := 3661,
    subscription_id := 1,
    is_read := true,
    number := "06641234567",
    features := 0,
    via_number := "",
    last_modified := ⟨2024, 3, 6, 10, 20, 31⟩,
    new := true,
    missed_reason := 0,
    phone_account_address := "",
    add_for_all_users := true,
    block_reason := 0,
    priority := 0,
    countryiso := "at",
    is_call_log_phone_account_migration_pending := false,
    post_dial_digits := "",
    transcription_state := false,
    _id := 1 }

/-! ## Helper lemmas: decimal digit strings -/

theorem toDigitsCore_append (b : Nat) :
    ∀ (fuel n : Nat) (ds : List Char),
      Nat.toDigitsCore b fuel n ds = Nat.toDigitsCore b fuel n [] ++ ds := by
  intro fuel
  induction fuel with
  | zero => intro n ds; rfl
  | succ f ih =>
    intro n ds
    simp only [Nat.toDigitsCore]
    by_cases h : n / b = 0
    · simp [h]
    · simp only [h, if_false]
      rw [ih (n / b) (Nat.digitChar (n % b) :: ds), ih (n / b) [Nat.digitChar (n % b)]]
      simp

theorem digitVal_digitChar : ∀ d < 10, digitVal (Nat.digitChar d) = d := by decide

theorem isDigit_digitChar : ∀ d < 10, (Nat.digitChar d).isDigit = true := by decide

/-- The decimal digit string of `n` is nonempty, all digits, and folds back
to `n`. -/
theorem toDigitsCore_spec :
    ∀ (n fuel : Nat), n < fuel →
      (Nat.toDigitsCore 10 fuel n []).all Char.isDigit = true ∧
      (Nat.toDigitsCore 10 fuel n []).foldl (fun a c => a * 10 + digitVal c) 0 = n ∧
      Nat.toDigitsCore 10 fuel n [] ≠ [] := by
  intro n
  induction n using Nat.strong_induction_on with
  | _ n ih =>
    intro fuel hf
    match fuel, hf with
    | f + 1, hf =>
      simp only [Nat.toDigitsCore]
      by_cases h : n / 10 = 0
      · simp only [h, if_true]
        refine ⟨?_, ?_, by simp⟩
        · simp [List.all_cons, isDigit_digitChar (n % 10) (Nat.mod_lt _ (by omega))]
        · simp [digitVal_digitChar (n % 10) (Nat.mod_lt _ (by omega))]
          omega
      · have hdiv : n / 10 < n := Nat.div_lt_self (by omega) (by omega)
        have hfd : n / 10 < f := by omega
        obtain ⟨hall, hval, hne⟩ := ih (n / 10) hdiv f hfd
        simp only [h, if_false]
        rw [toDigitsCore_append]
        refine ⟨?_, ?_, by simp [hne]⟩
        · simp [List.all_append, hall,
            isDigit_digitChar (n % 10) (Nat.mod_lt _ (by omega))]
        · rw [List.foldl_append, hval]
          simp [digitVal_digitChar (n % 10) (Nat.mod_lt _ (by omega))]
          omega

/-- Parsing the decimal rendering of any `Nat` gives it back. -/
theorem parseDigits_repr (n : Nat) : parseDigits (Nat.repr n).data = some n := by
  have h := toDigitsCore_spec n (n + 1) (Nat.lt_succ_self n)
  have hdata : (Nat.repr n).data = Nat.toDigitsCore 10 (n + 1) n [] := rfl
  rw [hdata]
  obtain ⟨hall, hval, hne⟩ := h
  unfold parseDigits
  rw [if_neg (by simpa using hne), if_pos hall, hval]

theorem pad2_data :
    ∀ k < 100, (pad2 k).data = [Nat.digitChar (k / 10), Nat.digitChar (k % 10)] := by
  decide

theorem repr_len_lt24 : ∀ k < 24, (Nat.repr k).length = if k < 10 then 1 else 2 := by
  decide

theorem pad2_data_lt10 : ∀ k < 10, (pad2 k).data = '0' :: (Nat.repr k).data := by
  decide

theorem pad2_data_ge10 : ∀ k < 100, 10 ≤ k → (pad2 k).data = (Nat.repr k).data := by
  decide

theorem parse2_pad2 : ∀ k < 100, parse2 (pad2 k).data = some k := by decide

/-! ## Helper lemmas: duration rendering -/

/-- For spans under one day, `str(timedelta)` is the unpadded hour with
padded minutes and seconds. -/
theorem tdStr_small (n : Nat) (h : n < 86400) :
    tdStr (n : Int) =
      toString (n / 3600) ++ ":" ++ pad2 (n % 3600 / 60) ++ ":" ++ pad2 (n % 60) := by
  have hfd : (n : Int).fdiv 86400 = 0 := by
    rw [Int.fdiv_eq_ediv _ (by norm_num)]
    omega
  simp only [tdStr, hfd, zero_mul, sub_zero, Int.toNat_natCast]
  simp

/-- For spans under one day, right-justifying `str(timedelta)` to 8 zeros
yields the fully padded `HH:MM:SS` form. -/
theorem duration_fmt (n : Nat) (h : n < 86400) :
    renderDuration (n : Int) =
      pad2 (n / 3600) ++ ":" ++ pad2 (n % 3600 / 60) ++ ":" ++ pad2 (n % 60) := by
  have hm : n % 3600 / 60 < 100 := by omega
  have hs : n % 60 < 100 := by omega
  have hh : n / 3600 < 24 := by omega
  rw [renderDuration, tdStr_small n h]
  apply String.ext
  have hlm : (pad2 (n % 3600 / 60)).length = 2 := by
    have := pad2_data _ hm
    simp [String.length, this]
  have hls : (pad2 (n % 60)).length = 2 := by
    have := pad2_data _ hs
    simp [String.length, this]
  have hc : (":" : String).length = 1 := rfl
  by_cases h10 : n / 3600 < 10
  · have hlh : (toString (n / 3600)).length = 1 := by
      have := repr_len_lt24 _ hh
      simpa [h10, toString] using this
    have hlen : (toString (n / 3600) ++ ":" ++ pad2 (n % 3600 / 60) ++ ":" ++
        pad2 (n % 60)).length = 7 := by
      simp only [String.length_append, hlm, hls, hlh, hc]
    simp only [rjust, hlen, String.data_append]
    simp [List.replicate, String.data_append, pad2_data_lt10 _ h10, toString]
  · have hlh : (toString (n / 3600)).length = 2 := by
      have := repr_len_lt24 _ hh
      simpa [h10, toString] using this
    have hlen : (toString (n / 3600) ++ ":" ++ pad2 (n % 3600 / 60) ++ ":" ++
        pad2 (n % 60)).length = 8 := by
      simp only [String.length_append, hlm, hls, hlh, hc]
    simp only [rjust, hlen, String.data_append]
    simp [List.replicate, String.data_append,
      pad2_data_ge10 (n / 3600) (by omega) (by omega), toString]

/-- A fully padded `HH:MM:SS` rendering has the claimed shape and length. -/
theorem specHMSForm_pads (a b c : Nat) (ha : a < 100) (hb : b < 100) (hc : c < 100) :
    specHMSForm (pad2 a ++ ":" ++ pad2 b ++ ":" ++ pad2 c) = true ∧
    (pad2 a ++ ":" ++ pad2 b ++ ":" ++ pad2 c).length = 8 := by
  have hda := pad2_data a ha
  have hdb := pad2_data b hb
  have hdc := pad2_data c hc
  have h1 : (Nat.digitChar (a / 10)).isDigit = true := isDigit_digitChar _ (by omega)
  have h2 : (Nat.digitChar (a % 10)).isDigit = true := isDigit_digitChar _ (by omega)
  have h3 : (Nat.digitChar (b / 10)).isDigit = true := isDigit_digitChar _ (by omega)
  have h4 : (Nat.digitChar (b % 10)).isDigit = true := isDigit_digitChar _ (by omega)
  have h5 : (Nat.digitChar (c / 10)).isDigit = true := isDigit_digitChar _ (by omega)
  have h6 : (Nat.digitChar (c % 10)).isDigit = true := isDigit_digitChar _ (by omega)
  have hdata : (pad2 a ++ ":" ++ pad2 b ++ ":" ++ pad2 c).data =
      [Nat.digitChar (a / 10), Nat.digitChar (a % 10), ':',
       Nat.digitChar (b / 10), Nat.digitChar (b % 10), ':',
       Nat.digitChar (c / 10), Nat.digitChar (c % 10)] := by
    simp [String.data_append, hda, hdb, hdc]
  constructor
  · simp only [specHMSForm, hdata]
    simp [h1, h2, h3, h4, h5, h6]
  · have hl : (pad2 a ++ ":" ++ pad2 b ++ ":" ++ pad2 c).length =
        ((pad2 a ++ ":" ++ pad2 b ++ ":" ++ pad2 c).data).length := rfl
    rw [hl, hdata]
    rfl

/-! ## Helper lemmas: timestamp reconstruction -/

/-- Rendered date and time columns determine the displayed timestamp. -/
theorem reconstruct_fmt (d : DateTime) (h : ValidDT d) :
    reconstructDT (fmtDate d) (fmtTime d) = some d := by
  obtain ⟨y, mo, dy, hh, mi, se⟩ := d
  obtain ⟨hy1, hy2, hmo, hdy, hhh, hmi, hse⟩ := h
  have hdate : (fmtDate ⟨y, mo, dy, hh, mi, se⟩).data =
      Nat.digitChar (dy / 10) :: Nat.digitChar (dy % 10) :: '.' ::
      Nat.digitChar (mo / 10) :: Nat.digitChar (mo % 10) :: '.' :: (Nat.repr y).data := by
    simp [fmtDate, String.data_append, pad2_data dy hdy, pad2_data mo hmo, toString]
  have htime : (fmtTime ⟨y, mo, dy, hh, mi, se⟩).data =
      [Nat.digitChar (hh / 10), Nat.digitChar (hh % 10), ':',
       Nat.digitChar (mi / 10), Nat.digitChar (mi % 10), ':',
       Nat.digitChar (se / 10), Nat.digitChar (se % 10)] := by
    simp [fmtTime, String.data_append, pad2_data hh hhh, pad2_data mi hmi,
      pad2_data se hse, toString]
  have hp2 : ∀ k, k < 100 →
      parse2 [Nat.digitChar (k / 10), Nat.digitChar (k % 10)] = some k := by
    intro k hk
    have := parse2_pad2 k hk
    rwa [pad2_data k hk] at this
  simp only [reconstructDT, hdate, htime]
  simp [hp2 dy hdy, hp2 mo hmo, parseDigits_repr y, hp2 hh hhh, hp2 mi hmi, hp2 se hse]

/-! ## Helper lemmas: the date-range filter -/

theorem startTest_of_any_false (startI : Option Int) (t : Int)
    (h : startI.any (fun s => decide (t < s)) = false) :
    startI.all (fun s => decide (s ≤ t)) = true := by
  cases startI with
  | none => rfl
  | some s =>
    simp only [Option.any] at h
    simp only [Option.all]
    simpa using h

theorem stopTest_of_any_false (stopI : Option Int) (t : Int)
    (h : stopI.any (fun e => decide (e ≤ t)) = false) :
    stopI.all (fun e => decide (t < e)) = true := by
  cases stopI with
  | none => rfl
  | some e =>
    simp only [Option.any] at h
    simp only [Option.all]
    simpa using h

/-- On a descending-by-time list, the early-exit/skip loop keeps exactly the
in-range elements. -/
theorem keepRows_eq_filter (startI stopI : Option Int) :
    ∀ calls : List Int, calls.Pairwise (fun a b => b ≤ a) →
      keepRows startI stopI calls = calls.filter (rangeTest startI stopI) := by
  intro calls
  induction calls with
  | nil => intro _; rfl
  | cons t ts ih =>
    intro hp
    rw [List.pairwise_cons] at hp
    obtain ⟨hall, hts⟩ := hp
    cases hstart : startI.any (fun s => decide (t < s)) with
    | true =>
      obtain ⟨s, hs, hlt⟩ : ∃ s, startI = some s ∧ t < s := by
        cases startI with
        | none => simp [Option.any] at hstart
        | some s => exact ⟨s, rfl, by simpa using hstart⟩
      have hnil : List.filter (rangeTest startI stopI) (t :: ts) = [] := by
        rw [List.filter_eq_nil_iff]
        intro u hu
        have hut : u ≤ t := by
          rcases List.mem_cons.mp hu with rfl | hu
          · exact le_refl u
          · exact hall u hu
        simp only [rangeTest, hs, Option.all, Bool.and_eq_true, decide_eq_true_eq]
        intro hcon
        omega
      rw [hnil]
      simp [keepRows, hstart]
    | false =>
      have hsok := startTest_of_any_false startI t hstart
      cases hstop : stopI.any (fun e => decide (e ≤ t)) with
      | true =>
        obtain ⟨e, he, hle⟩ : ∃ e, stopI = some e ∧ e ≤ t := by
          cases stopI with
          | none => simp [Option.any] at hstop
          | some e => exact ⟨e, rfl, by simpa using hstop⟩
        have hfail : rangeTest startI stopI t = false := by
          simp only [rangeTest, he, Option.all, Bool.and_eq_false_iff]
          right
          simpa using hle
        simp [keepRows, hstart, hstop, List.filter_cons, hfail, ih hts]
      | false =>
        have heok := stopTest_of_any_false stopI t hstop
        have hpass : rangeTest startI stopI t = true := by
          simp only [rangeTest, hsok, heok, Bool.and_self]
        simp [keepRows, hstart, hstop, List.filter_cons, hpass, ih hts]

/-! ## Helper lemmas: the decoder's field loop -/

theorem lookup_none_ne (obj : List (String × RawVal)) (k : String)
    (h : obj.lookup k = none) : ∀ kv ∈ obj, kv.1 ≠ k := by
  induction obj with
  | nil => intro kv hkv; cases hkv
  | cons a tl ih =>
    intro kv hkv
    rw [List.lookup] at h
    cases hak : (k == a.1) with
    | true => rw [hak] at h; cases h
    | false =>
      rw [hak] at h
      rcases List.mem_cons.mp hkv with rfl | hkv
      · intro he
        rw [he] at hak
        simp at hak
      · exact ih h kv hkv

theorem lookup_eraseP_ne (k k' : String) (h : k' ≠ k) (obj : List (String × RawVal)) :
    (obj.eraseP (fun kv => kv.1 == k)).lookup k' = obj.lookup k' := by
  induction obj with
  | nil => rfl
  | cons kv tl ih =>
    by_cases hk : kv.1 = k
    · rw [List.eraseP_cons_of_pos (by simp [hk])]
      rw [List.lookup]
      have : (k' == kv.1) = false := by simp [hk, h]
      rw [this]
    · rw [List.eraseP_cons_of_neg (by simp [hk])]
      rw [List.lookup, List.lookup]
      cases hk' : (k' == kv.1) with
      | true => rfl
      | false => rw [ih]

theorem all_lookup_congr (fs : List FieldSpec) (obj obj' : List (String × RawVal))
    (h : ∀ g ∈ fs, obj'.lookup g.name = obj.lookup g.name) :
    (fs.all fun g =>
      match obj'.lookup g.name with
      | some v => (decodeField g.type v).isOk
      | none => g.hasDefault) =
    (fs.all fun g =>
      match obj.lookup g.name with
      | some v => (decodeField g.type v).isOk
      | none => g.hasDefault) := by
  induction fs with
  | nil => rfl
  | cons g gs ih =>
    rw [List.all_cons, List.all_cons, h g (by simp),
      ih (fun g' hg' => h g' (List.mem_cons_of_mem _ hg'))]

/-- The field loop succeeds exactly when every present field decodes and
every absent field has a default. -/
theorem decodeFields_isOk_iff :
    ∀ (fs : List FieldSpec) (obj : List (String × RawVal)),
      List.Pairwise (fun a b => a ≠ b) (fs.map (fun f => f.name)) →
      ((decodeFields fs obj).isOk = true ↔
        fs.all (fun f =>
          match obj.lookup f.name with
          | some v => (decodeField f.type v).isOk
          | none => f.hasDefault) = true) := by
  intro fs
  induction fs with
  | nil => intro obj _; simp [decodeFields, Except.isOk, Except.toBool]
  | cons f fs ih =>
    intro obj hnd
    rw [List.map_cons, List.pairwise_cons] at hnd
    obtain ⟨hne, hnd'⟩ := hnd
    rw [decodeFields]
    by_cases hdef : f.hasDefault ∧ obj.lookup f.name = none
    · rw [if_pos hdef, ih obj hnd']
      obtain ⟨hd, hnone⟩ := hdef
      simp [List.all_cons, hnone, hd]
    · rw [if_neg hdef]
      cases hl : obj.lookup f.name with
      | none =>
        have hdf : f.hasDefault = false := by
          cases hb : f.hasDefault with
          | false => rfl
          | true => exact absurd ⟨hb, hl⟩ hdef
        simp [popKey, hl, List.all_cons, hdf, Except.isOk, Except.toBool]
      | some v =>
        have hpop : popKey f.name obj = some (v, obj.eraseP (fun kv => kv.1 == f.name)) := by
          simp [popKey, hl]
        simp only [hpop]
        cases hdec : decodeField f.type v with
        | error msg => simp [List.all_cons, hl, hdec, Except.isOk, Except.toBool]
        | ok d =>
          simp only [hdec]
          have hrest : ∀ g ∈ fs,
              (obj.eraseP (fun kv => kv.1 == f.name)).lookup g.name = obj.lookup g.name := by
            intro g hg
            exact lookup_eraseP_ne f.name g.name
              (fun he => hne g.name (List.mem_map_of_mem _ hg) he.symm) obj
          have hiso : ((match decodeFields fs (obj.eraseP (fun kv => kv.1 == f.name)) with
              | Except.error e => (Except.error e :
                  Except DecodeError (List (String × DecVal) × List (String × RawVal)))
              | Except.ok (ds, rest2) => Except.ok ((f.name, d) :: ds, rest2)).isOk = true ↔
              (decodeFields fs (obj.eraseP (fun kv => kv.1 == f.name))).isOk = true) := by
            cases h2 : decodeFields fs (obj.eraseP (fun kv => kv.1 == f.name)) with
            | error e => simp [Except.isOk, Except.toBool]
            | ok pr =>
              obtain ⟨ds, r2⟩ := pr
              simp [Except.isOk, Except.toBool]
          rw [hiso, ih _ hnd', all_lookup_congr fs obj _ hrest]
          simp [List.all_cons, hl, hdec, Except.isOk, Except.toBool]

theorem filter_eraseP_key (k : String) (ns : List String) :
    ∀ obj : List (String × RawVal), (obj.map (fun kv => kv.1)).Nodup →
      (obj.eraseP (fun kv => kv.1 == k)).filter (fun kv => !(ns.contains kv.1)) =
        obj.filter (fun kv => !((kv.1 == k) || ns.contains kv.1)) := by
  intro obj
  induction obj with
  | nil => intro _; rfl
  | cons a tl ih =>
    intro hnd
    rw [List.map_cons, List.nodup_cons] at hnd
    obtain ⟨hnin, hnd'⟩ := hnd
    by_cases hak : a.1 = k
    · rw [List.eraseP_cons_of_pos (by simp [hak])]
      rw [List.filter_cons]
      have hhead : (!((a.1 == k) || ns.contains a.1)) = false := by simp [hak]
      rw [hhead]
      simp only [Bool.false_eq_true, if_false]
      apply List.filter_congr
      intro kv hkv
      have : kv.1 ≠ k := by
        intro he
        exact hnin (by rw [hak, ← he]; exact List.mem_map_of_mem _ hkv)
      simp [this]
    · rw [List.eraseP_cons_of_neg (by simp [hak])]
      rw [List.filter_cons, List.filter_cons]
      have : (!((a.1 == k) || ns.contains a.1)) = (!(ns.contains a.1)) := by simp [hak]
      rw [this, ih hnd']

/-- After a successful field loop, what remains of the input object is
exactly its entries whose keys are no field names. -/
theorem decodeFields_residual :
    ∀ (fs : List FieldSpec) (obj : List (String × RawVal)),
      (obj.map (fun kv => kv.1)).Nodup →
      ∀ res rest, decodeFields fs obj = .ok (res, rest) →
        rest = obj.filter (fun kv => !((fs.map (fun f => f.name)).contains kv.1)) := by
  intro fs
  induction fs with
  | nil =>
    intro obj _ res rest h
    simp [decodeFields] at h
    obtain ⟨_, h2⟩ := h
    simp [← h2]
  | cons f fs ih =>
    intro obj hnd res rest h
    rw [decodeFields] at h
    by_cases hdef : f.hasDefault ∧ obj.lookup f.name = none
    · rw [if_pos hdef] at h
      obtain ⟨hd, hnone⟩ := hdef
      rw [ih obj hnd res rest h]
      apply List.filter_congr
      intro kv hkv
      have hne := lookup_none_ne obj f.name hnone kv hkv
      simp [List.contains_cons, hne]
    · rw [if_neg hdef] at h
      cases hl : obj.lookup f.name with
      | none => simp [popKey, hl] at h
      | some v =>
        have hpop : popKey f.name obj = some (v, obj.eraseP (fun kv => kv.1 == f.name)) := by
          simp [popKey, hl]
        simp only [hpop] at h
        cases hdec : decodeField f.type v with
        | error msg => simp only [hdec] at h; cases h
        | ok d =>
          simp only [hdec] at h
          cases h2 : decodeFields fs (obj.eraseP (fun kv => kv.1 == f.name)) with
          | error e => simp only [h2] at h; cases h
          | ok pr =>
            obtain ⟨ds, r2⟩ := pr
            simp only [h2, Except.ok.injEq, Prod.mk.injEq] at h
            have hrr : r2 = rest := h.2
            have hnd2 : ((obj.eraseP (fun kv => kv.1 == f.name)).map (fun kv => kv.1)).Nodup :=
              hnd.sublist (List.Sublist.map _ (List.eraseP_sublist _))
            have hres := ih _ hnd2 ds r2 h2
            rw [← hrr, hres]
            have := filter_eraseP_key f.name (fs.map (fun f => f.name)) obj hnd
            rw [this]
            apply List.filter_congr
            intro kv _
            rw [List.map_cons, List.contains_cons]

/-! ## The claims -/

/-- C1 counterexample: a well-formed input object whose flag field
`missed_reason` carries the stringified integer 8388608 — bit 23, which
corresponds to no defined `MissedReason` flag — decodes successfully, and the
undefined code is passed through into the decoded record, so decoding does
not fail as claimed. -/
theorem claim_C1_counterexample :
    (fromJsonObj objUnknownFlag).isOk = true ∧
    (fromJsonObj objUnknownFlag).toOption.bind
      (fun p => p.1.lookup "missed_reason") = some (.flagv 8388608) :=
  ⟨by decide, by decide⟩

/-- C1 (amended): for enumerated (non-flag) fields, a stringified integer
that is not a defined member makes decoding fail, aborting the field loop
with a `ValueError` whose message names the offending raw value but not the
field (only `TypeError` triggers the source's field-name reporter, and these
errors are not `TypeError`s); flag fields, however, follow the `KEEP`
boundary of CPython's `IntFlag`, so every non-negative integer — set bits
matching no known flag included — decodes successfully and is passed through
into the record. -/
theorem claim_C1_amended :
    (∀ (members : List (String × Nat)) (s : String) (n : Int), parseInt s = some n →
      members.any (fun p => (p.2 : Int) == n) = false →
      decodeField (.enum members) (.str s) =
        .error (toString n ++ " is not a valid member")) ∧
    (∀ (members : List (String × Nat)) (s : String) (n : Int), parseInt s = some n →
      0 ≤ n → decodeField (.flag members) (.str s) = .ok (.flagv n.toNat)) ∧
    (∀ (f : FieldSpec) (fs : List FieldSpec) (obj : List (String × RawVal))
        (v : RawVal) (rest : List (String × RawVal)) (msg : String),
      popKey f.name obj = some (v, rest) →
      decodeField f.type v = .error msg →
      decodeFields (f :: fs) obj = .error (.badValue msg)) := by
  refine ⟨?_, ?_, ?_⟩
  · intro members s n hp hm
    simp [decodeField, hp, hm]
  · intro members s n hp hn
    simp [decodeField, hp, flagKeep, hn]
  · intro f fs obj v rest msg hpop hdec
    have hl : obj.lookup f.name ≠ none := by
      intro hn
      unfold popKey at hpop
      rw [hn] at hpop
      cases hpop
    rw [decodeFields, if_neg (fun hc => hl hc.2)]
    simp only [hpop, hdec]

/-- C1 witness: the undefined code 99 for the enum field `type` fails with
an error naming the value but no field, aborting the loop, while the
undefined flag bit 8388608 for `missed_reason` is kept. -/
theorem claim_C1_witness :
    decodeField (.enum callTypeMembers) (.str "99") =
      .error "99 is not a valid member" ∧
    decodeField (.flag missedReasonMembers) (.str "8388608") = .ok (.flagv 8388608) ∧
    decodeFields [⟨"type", .enum callTypeMembers, false⟩] [("type", RawVal.str "99")] =
      .error (.badValue "99 is not a valid member") := by
  refine ⟨?_, ?_, ?_⟩
  · exact claim_C1_amended.1 callTypeMembers "99" 99 (by decide) (by decide)
  · exact claim_C1_amended.2.1 missedReasonMembers "8388608" 8388608 (by decide) (by decide)
  · exact claim_C1_amended.2.2 ⟨"type", .enum callTypeMembers, false⟩ []
      [("type", RawVal.str "99")] (.str "99") [] "99 is not a valid member"
      (by decide) (by decide)

/-- C2 counterexample: not every instant within the stop calendar day is
included.  Day 19738 is 2024-01-16, a CET date (civil offset +3600); a call
at 23:58:00 local time on that day — instant `19739 * 86400 - 3720` — lies
within the stop day, yet with stop day 19738 the program's cutoff is the
LMT-based `dayBound 19738 + 86400 = 19739 * 86400 - 3900`, five minutes
before civil midnight, so the record is at or past the cutoff and is
skipped: the output is empty. -/
theorem claim_C2_counterexample :
    inCivilDay 3600 19738 (19739 * 86400 - 3720) = true ∧
    convertDateFilter none (some 19738) [19739 * 86400 - 3720] = [] :=
  ⟨by decide, by decide⟩

/-- C2 (amended): on a sequence sorted by timestamp descending, the
renderer's loop — which stops entirely at the first record older than the
start day's cutoff instant and skips records at or after the stop day's
cutoff instant plus one day — emits exactly the records between those
cutoffs; with a start bound, a leading too-old record ends the output
immediately.  The cutoffs, however, are naive midnights carrying pytz's
default LMT offset (+01:05) rather than civil midnights: each sits 5
minutes before civil midnight under CET and 55 minutes after it under CEST,
misfiltering records in those margins of the start and stop days. -/
theorem claim_C2_amended (startDay stopDay : Option Int) (calls : List Int)
    (h : calls.Pairwise (fun a b => b ≤ a)) :
    convertDateFilter startDay stopDay calls = calls.filter (inRange startDay stopDay) ∧
    (∀ s t ts, t < dayBound s → convertDateFilter (some s) stopDay (t :: ts) = []) := by
  constructor
  · rw [convertDateFilter, keepRows_eq_filter (startDay.map dayBound)
      (stopDay.map (fun d => dayBound d + 86400)) calls h]
    apply List.filter_congr
    intro t _
    cases startDay <;> cases stopDay <;> rfl
  · intro s t ts hts
    rw [convertDateFilter]
    simp [keepRows, Option.map, Option.any, hts]

/-- C2 witness: three records on days 5, 3 and 1, filtered from start day 4,
keep exactly the day-5 record. -/
theorem claim_C2_witness :
    convertDateFilter (some 4) none [5 * 86400 + 100, 3 * 86400 + 50, 86400] =
      [5 * 86400 + 100] :=
  ((claim_C2_amended (some 4) none [5 * 86400 + 100, 3 * 86400 + 50, 86400]
    (by decide)).1).trans (by decide)

/-- C3: selecting the columns `date` and `time` yields a date-only first
cell and an `HH:MM:SS` second cell which together determine the record's
timestamp to second precision; when `time` is not among the selected
columns, the `date` cell renders date and time together. -/
theorem claim_C3 (r : CallRecord) (h : ValidDT r.date) :
    csvRow r ["date", "time"] = .ok [fmtDate r.date, fmtTime r.date] ∧
    reconstructDT (fmtDate r.date) (fmtTime r.date) = some r.date ∧
    (∀ fields : List String, fields.contains "time" = false →
      csvCell r fields "date" = fmtDateTime r.date) := by
  refine ⟨rfl, reconstruct_fmt r.date h, ?_⟩
  intro fields hc
  simp only [csvCell]
  rw [hc]
  simp

/-- C3 witness at a concrete record. -/
theorem claim_C3_witness :
    csvRow rec0 ["date", "time"] = .ok [fmtDate rec0.date, fmtTime rec0.date] ∧
    reconstructDT (fmtDate rec0.date) (fmtTime rec0.date) = some rec0.date ∧
    fmtDate rec0.date = "06.03.2024" ∧ fmtTime rec0.date = "10:20:30" := by
  have h := claim_C3 rec0 (by decide)
  exact ⟨h.1, h.2.1, by decide, by decide⟩

/-- C4 counterexample: a duration of one whole day renders as
`str(timedelta)` with a day-count prefix, which is not of the claimed
`HH:MM:SS` shape — the claim fails for durations of a day or more. -/
theorem claim_C4_counterexample :
    renderDuration 86400 = "1 day, 0:00:00" ∧
    specHMSForm (renderDuration 86400) = false :=
  ⟨by decide, by decide⟩

/-- C4 (amended): for non-negative durations under one day (86400 seconds)
the rendered duration is `HH:MM:SS`, zero-padded to exactly 8 characters;
durations of a day or more additionally carry a day-count prefix.  In
particular 0 renders as `00:00:00` and 3661 as `01:01:01`. -/
theorem claim_C4_amended (n : Nat) (h : n < 86400) :
    renderDuration (n : Int) =
      pad2 (n / 3600) ++ ":" ++ pad2 (n % 3600 / 60) ++ ":" ++ pad2 (n % 60) ∧
    specHMSForm (renderDuration (n : Int)) = true ∧
    (renderDuration (n : Int)).length = 8 ∧
    renderDuration 0 = "00:00:00" ∧ renderDuration 3661 = "01:01:01" := by
  have h1 := duration_fmt n h
  have h2 := specHMSForm_pads (n / 3600) (n % 3600 / 60) (n % 60)
    (by omega) (by omega) (by omega)
  exact ⟨h1, by rw [h1]; exact h2.1, by rw [h1]; exact h2.2, by decide, by decide⟩

/-- C4 witness at 3661 seconds. -/
theorem claim_C4_witness :
    renderDuration ((3661 : Nat) : Int) = pad2 1 ++ ":" ++ pad2 1 ++ ":" ++ pad2 1 ∧
    specHMSForm (renderDuration ((3661 : Nat) : Int)) = true := by
  have h := claim_C4_amended 3661 (by decide)
  exact ⟨h.1, h.2.1⟩

/-- C5: a boolean-typed field decodes the raw string `1` to true and every
other raw string to false, passes a native boolean through unchanged, and
every decoded boolean field renders as `Yes` or `No`. -/
theorem claim_C5 :
    (∀ s : String, decodeField .boolean (.str s) = .ok (.bv (s == "1"))) ∧
    (∀ b : Bool, decodeField .boolean (.bool b) = .ok (.bv b)) ∧
    (∀ r : CallRecord,
      csvCell r defaultCsvFields "is_read" = (if r.is_read then "Yes" else "No") ∧
      csvCell r defaultCsvFields "phone_account_hidden" =
        (if r.phone_account_hidden then "Yes" else "No") ∧
      csvCell r defaultCsvFields "new" = (if r.new then "Yes" else "No") ∧
      csvCell r defaultCsvFields "add_for_all_users" =
        (if r.add_for_all_users then "Yes" else "No") ∧
      csvCell r defaultCsvFields "is_call_log_phone_account_migration_pending" =
        (if r.is_call_log_phone_account_migration_pending then "Yes" else "No") ∧
      csvCell r defaultCsvFields "transcription_state" =
        (if r.transcription_state then "Yes" else "No")) :=
  ⟨fun _ => rfl, fun _ => rfl, fun _ => ⟨rfl, rfl, rfl, rfl, rfl, rfl⟩⟩

/-- C6: requesting a column that is neither a dataclass field nor the alias
`time` makes `csv_row` fail before rendering anything: the result is the
configuration error and no cells. -/
theorem claim_C6 (r : CallRecord) (fields : List String) (f : String)
    (hmem : f ∈ fields) (hnf : f ∉ callFieldNames) (ht : f ≠ "time") :
    csvRow r fields = .error .unknownFields := by
  have hc : ¬(fields.all (fun g => g == "time" || callFieldNames.contains g) = true) := by
    intro hall
    have hf := List.all_eq_true.mp hall f hmem
    rcases (by simpa using hf : f = "time" ∨ f ∈ callFieldNames) with h1 | h2
    · exact ht h1
    · exact hnf h2
  rw [csvRow, if_neg hc]

/-- C6 witness: the unknown column `ringtone`. -/
theorem claim_C6_witness :
    csvRow rec0 ["date", "ringtone"] = .error .unknownFields :=
  claim_C6 rec0 ["date", "ringtone"] "ringtone" (by decide) (by decide) (by decide)

/-- C7: for any two distinct nonzero members of `MissedReason` or of
`CallFeatures`, the bitwise combination of their values decodes (as a
stringified integer) to exactly that combination, its member set is exactly
the two members in definition order, and it renders as the two pretty labels
joined by a comma (with the acronym fix-ups for `CallFeatures`). -/
theorem claim_C7 :
    (∀ i j : Fin missedReasonMembers.length, i < j →
      (missedReasonMembers.get i).2 ≠ 0 → (missedReasonMembers.get j).2 ≠ 0 →
      decodeField (.flag missedReasonMembers)
          (.str (toString ((missedReasonMembers.get i).2 ||| (missedReasonMembers.get j).2))) =
        .ok (.flagv ((missedReasonMembers.get i).2 ||| (missedReasonMembers.get j).2)) ∧
      flagMembersOf missedReasonMembers
          ((missedReasonMembers.get i).2 ||| (missedReasonMembers.get j).2) =
        [missedReasonMembers.get i, missedReasonMembers.get j] ∧
      prettyFlagStr missedReasonMembers
          ((missedReasonMembers.get i).2 ||| (missedReasonMembers.get j).2) =
        capWords (replaceChar (missedReasonMembers.get i).1 '_' " ") ++ ", " ++
          capWords (replaceChar (missedReasonMembers.get j).1 '_' " ")) ∧
    (∀ i j : Fin callFeaturesMembers.length, i < j →
      decodeField (.flag callFeaturesMembers)
          (.str (toString ((callFeaturesMembers.get i).2 ||| (callFeaturesMembers.get j).2))) =
        .ok (.flagv ((callFeaturesMembers.get i).2 ||| (callFeaturesMembers.get j).2)) ∧
      flagMembersOf callFeaturesMembers
          ((callFeaturesMembers.get i).2 ||| (callFeaturesMembers.get j).2) =
        [callFeaturesMembers.get i, callFeaturesMembers.get j] ∧
      callFeaturesStr ((callFeaturesMembers.get i).2 ||| (callFeaturesMembers.get j).2) =
        prettyFeatureLabel (callFeaturesMembers.get i).1 ++ ", " ++
          prettyFeatureLabel (callFeaturesMembers.get j).1) := by
  decide

/-- C7 witness: the combination of `USER_MISSED_NO_ANSWER` and
`USER_MISSED_SHORT_RING` (0x10000 and 0x20000). -/
theorem claim_C7_witness :
    decodeField (.flag missedReasonMembers) (.str "196608") = .ok (.flagv 196608) ∧
    prettyFlagStr missedReasonMembers 196608 =
      "User Missed No Answer, User Missed Short Ring" := by
  have h := claim_C7.1 ⟨4, by decide⟩ ⟨5, by decide⟩ (by decide) (by decide) (by decide)
  exact ⟨h.1, h.2.2.trans (by decide)⟩

/-- C8 counterexample: an object carrying every no-default field with
decodable values, plus the defaulted field `numbertype` with the undefined
code 99, satisfies the claimed success condition yet fails to decode — the
claimed equivalence does not hold. -/
theorem claim_C8_counterexample :
    requiredFieldsOk objBadOptional = true ∧
    (fromJsonObj objBadOptional).isOk = false :=
  ⟨by decide, by decide⟩

/-- C8 (amended): a field with no default that is absent makes decoding
fail, an absent field with a default is filled in, and decoding succeeds
exactly when every no-default field is present and decodable and every
present field — defaulted or not — is decodable, where decodability
includes the representable-range checks of `utcfromtimestamp`/`astimezone`
for timestamps and of `timedelta` for durations. -/
theorem claim_C8_amended (obj : List (String × RawVal)) :
    (fromJsonObj obj).isOk = true ↔ allPresentFieldsOk obj = true :=
  decodeFields_isOk_iff phoneCallFields obj (by decide)

/-- C9: decoding pops every consumed key out of the caller's object: after a
successful decode, what remains of the input object is exactly its entries
whose keys are not `PhoneCall` field names. -/
theorem claim_C9 (obj : List (String × RawVal))
    (hnd : (obj.map (fun kv => kv.1)).Nodup)
    (res : List (String × DecVal)) (rest : List (String × RawVal))
    (h : fromJsonObj obj = .ok (res, rest)) :
    rest = obj.filter (fun kv => !(callFieldNames.contains kv.1)) :=
  decodeFields_residual phoneCallFields obj hnd res rest h

/-- C9 witness: after decoding `objExtraKey`, only its unrecognized key
remains. -/
theorem claim_C9_witness :
    ∃ res, fromJsonObj objExtraKey =
      .ok (res, objExtraKey.filter (fun kv => !(callFieldNames.contains kv.1))) ∧
    objExtraKey.filter (fun kv => !(callFieldNames.contains kv.1)) =
      [("contact_ringtone", RawVal.str "x")] := by
  cases e : fromJsonObj objExtraKey with
  | error err =>
    have hok : (fromJsonObj objExtraKey).isOk = true := by decide
    rw [e] at hok
    simp [Except.isOk, Except.toBool] at hok
  | ok pr =>
    obtain ⟨res, rest⟩ := pr
    have hres := claim_C9 objExtraKey (by decide) res rest e
    exact ⟨res, by rw [hres], by decide⟩

/-- C10: a flag value of zero renders as the empty string (its `__str__`
short-circuits before any pretty label is built), as does a `NumberType` of
0, both as plain values and as CSV cells. -/
theorem claim_C10 :
    (∀ members : List (String × Nat), prettyFlagStr members 0 = "") ∧
    callFeaturesStr 0 = "" ∧
    numberTypeStr 0 = "" ∧
    csvCell rec0 defaultCsvFields "missed_reason" = "" ∧
    csvCell rec0 defaultCsvFields "features" = "" ∧
    csvCell { rec0 with numbertype := some 0 } defaultCsvFields "numbertype" = "" :=
  ⟨fun _ => rfl, rfl, rfl, by decide, by decide, by decide⟩

end CallLog
